import Mathlib

/-!
Verification development for the supplychain-guard security pipeline.

The TypeScript sources are shallowly embedded: each script's pure decision
logic becomes a Lean function over explicit inputs (the filesystem corpus,
the paginated upstream source and the external scanner are passed in as
data / functions), and the claimed properties of the natural-language
specification are proved or refuted about those functions.

Embedded components:
* the change-set retriever with paginated fetching (`fetchLoop`,
  `getDependencyChanges`);
* the malware classifier (`checkMalwareVulnerabilities`);
* the malicious name/version matcher of the check-ossf script
  (`checkEcosystem`, `checkOssfCore`, `checkOssfMain`);
* the batched heuristic-scan scheduler of the check-guarddog script
  (`buildScanTasks`, `runBatches`, `checkGuarddogMain`);
* the aggregator / summary readers of the PR-comment script
  (`readDependencyReviewResults`, `readOSSFResults`, `readGuardDogResults`,
  `hasIssues`).
-/

/- ===================== Shared string machinery ===================== -/

/-- Substring test on character lists: JavaScript `hay.includes(needle)`.
`listContainsSub needle hay` is true iff `needle` occurs contiguously in `hay`. -/
def listContainsSub (needle : List Char) : List Char → Bool
  | [] => needle.isEmpty
  | c :: rest => needle.isPrefixOf (c :: rest) || listContainsSub needle rest

/-- ASCII lowercasing of one character (the case folding JavaScript
`toLowerCase` performs on the ASCII advisory text involved here). -/
def lowerChar (c : Char) : Char :=
  if 'A' ≤ c ∧ c ≤ 'Z' then Char.ofNat (c.toNat + 32) else c

/-- JavaScript `s.toLowerCase()` over the character list of `s`. -/
def lowerList (s : List Char) : List Char := s.map lowerChar

/-- JavaScript `s.startsWith(pre)` over character lists. -/
def startsWithList (s pre : List Char) : Bool := pre.isPrefixOf s

/- ===================== Data model (dependency-review script) ===================== -/

/-- `change_type` field of a dependency-review record. -/
inductive ChangeType where
  | added
  | removed
  | updated
deriving DecidableEq

/-- Advisory attached to a vulnerability (GitHub advisory shape). -/
structure Advisory where
  ghsa_id : String
  cve_id : Option String
  summary : String
  description : String
  severity : String
  published_at : String
deriving DecidableEq

/-- One vulnerability annotation of a dependency change. -/
structure VulnerabilityInfo where
  severity : String
  advisory : Advisory
deriving DecidableEq

/-- Raw record returned by the paginated comparison endpoint
(`DependencyReviewResponse` in the source; the `manifest` field is carried
along but never consulted by the embedded logic). -/
structure RawDep where
  name : String
  version : String
  ecosystem : String
  change_type : ChangeType
  manifest : String
  vulnerabilities : Option (List VulnerabilityInfo)
deriving DecidableEq

/-- Normalized dependency change produced by the retriever. -/
structure DependencyChange where
  name : String
  version : String
  ecosystem : String
  changeType : ChangeType
  vulnerabilities : List VulnerabilityInfo
deriving DecidableEq

/- ===================== Change Set Retriever ===================== -/

/-- One step of the pagination loop of `getDependencyChanges` in the
dependency-review script.  `serve page` is the array the comparison endpoint
returns for that page.  Starting at `page`, it requests pages while each
response is full (100 records), stopping at the first short page or once the
next page number would exceed 50 (the runaway-pagination cap; the `Bool`
component records that the cap warning was logged).  Returns
(accumulated records, number of page requests issued, cap-hit flag).
The fuel argument only bounds the recursion; the loop itself always stops at
page 50, so fuel 50 from page 1 is never exhausted. -/
def fetchLoop (serve : Nat → List RawDep) : Nat → Nat → List RawDep × Nat × Bool
  | _, 0 => ([], 0, false)
  | page, fuel + 1 =>
    let response := serve page
    if response.length < 100 then
      (response, 1, false)
    else if page + 1 > 50 then
      (response, 1, true)
    else
      let rest := fetchLoop serve (page + 1) fuel
      (response ++ rest.1, rest.2.1 + 1, rest.2.2)

/-- The retriever: fetch all pages starting at page 1, then keep only
`added`/`updated` records and normalize them (`getDependencyChanges` in the
dependency-review script).  Returns (changes, page requests, cap-hit flag). -/
def getDependencyChanges (serve : Nat → List RawDep) :
    List DependencyChange × Nat × Bool :=
  let fetched := fetchLoop serve 1 50
  ((fetched.1.filter fun d =>
      d.change_type == ChangeType.added || d.change_type == ChangeType.updated).map
    (fun d =>
      { name := d.name
        version := d.version
        ecosystem := d.ecosystem
        changeType := d.change_type
        vulnerabilities := d.vulnerabilities.getD [] }),
   fetched.2.1, fetched.2.2)

/-- Length of page `p` (1-based) when a source holds `n` records total and
serves them in order in pages of 100. -/
def pageLen (n p : Nat) : Nat := min 100 (n - 100 * (p - 1))

/- ===================== Malware Classifier ===================== -/

/-- The malware test applied to one vulnerability: advisory summary or
description contains the case-insensitive substring for malware, or the
advisory identifier itself contains it (transcribed from the filter in
`checkMalwareVulnerabilities`). -/
def isMalwareVuln (v : VulnerabilityInfo) : Bool :=
  listContainsSub (("malware").toList) (lowerList v.advisory.summary.toList) ||
  listContainsSub (("malware").toList) (lowerList v.advisory.description.toList) ||
  listContainsSub (("malware").toList) v.advisory.ghsa_id.toList

/-- One entry of the malware-hit artifact. -/
structure MalwareHit where
  name : String
  version : String
  vulnerabilities : List VulnerabilityInfo
deriving DecidableEq

/-- `checkMalwareVulnerabilities` of the dependency-review script: for each
change, keep the vulnerabilities passing the malware test and emit a hit iff
at least one was kept. -/
def checkMalwareVulnerabilities (changes : List DependencyChange) : List MalwareHit :=
  changes.foldl
    (fun malwareHits change =>
      let malwareVulns := change.vulnerabilities.filter isMalwareVuln
      if malwareVulns.length > 0 then
        malwareHits ++ [{ name := change.name
                          version := change.version
                          vulnerabilities := malwareVulns }]
      else malwareHits)
    []

/-- One step of `checkMalwareVulnerabilities` as an emit function (the loop
body: emit a hit exactly when at least one vulnerability passes the malware
test). -/
def malwareEmit (change : DependencyChange) : Option MalwareHit :=
  let malwareVulns := change.vulnerabilities.filter isMalwareVuln
  if malwareVulns.length > 0 then
    some { name := change.name
           version := change.version
           vulnerabilities := malwareVulns }
  else none

/- ===================== Malicious Name/Version Matcher (check-ossf) ===================== -/

/-- One element of the `affected` list of an OSV advisory document.
`packageName` is `affected.package?.name` (absent package or name gives
`none`); `versions` is the optional affected-version list. -/
structure Affected where
  packageName : Option String
  versions : Option (List String)
deriving DecidableEq

/-- Parsed OSV advisory document. -/
structure OsvData where
  affected : List Affected
deriving DecidableEq

/-- One package directory of the malicious-package corpus: its directory
name and its `.json` advisory documents in directory order; `none` stands
for a document that fails to read/parse. -/
structure CorpusPkg where
  dirName : String
  docs : List (Option OsvData)
deriving DecidableEq

/-- Lookup in `new Map(packages.map(p => [p.name, p.version]))`: later
insertions overwrite earlier ones, so the last pair with the given name
wins. -/
def packageMapGet (packages : List (String × String)) (n : String) : Option String :=
  packages.foldl (fun acc p => if p.1 == n then some p.2 else acc) none

/-- Whether an OSV document lists `version` as affected for the package with
the directory's name (the inner `affected` loop of check-ossf: the entry's
package name must equal the directory name and its version list must contain
the version). -/
def osvListsVersion (osv : OsvData) (dirName version : String) : Bool :=
  osv.affected.any fun a =>
    a.packageName == some dirName && (a.versions.getD []).contains version

/-- The exact-version decision for one corpus package directory: check-ossf
reads only the first `.json` file of the directory (`break` after it), so the
decision consults `docs.head?`; an unreadable first document yields no exact
match. -/
def exactVersionHit (d : CorpusPkg) (version : String) : Bool :=
  match d.docs.head? with
  | some (some osv) => osvListsVersion osv d.dirName version
  | _ => false

/-- Modelled from the spec: the spec's §4.3 wording says the matcher inspects
"exactly the first readable advisory document" of the package directory.
This comparison definition consults the first document that parses,
skipping unreadable ones. -/
def specFirstReadableHit (d : CorpusPkg) (version : String) : Bool :=
  match (d.docs.filterMap id).head? with
  | some osv => osvListsVersion osv d.dirName version
  | none => false

/-- Per-ecosystem pass of check-ossf over the corpus directory entries:
every directory whose name is a changed package name is a name hit, and
additionally an exact hit when the changed version is listed by the first
advisory document.  Returns (name hits, exact hits) in directory order. -/
def checkEcosystem (corpusDir : List CorpusPkg) (packages : List (String × String)) :
    List String × List (String × String) :=
  corpusDir.foldl
    (fun acc d =>
      match packageMapGet packages d.dirName with
      | some version =>
        (acc.1 ++ [d.dirName],
         if exactVersionHit d version then acc.2 ++ [(d.dirName, version)] else acc.2)
      | none => acc)
    ([], [])

/-- One step of `checkEcosystem`'s exact-hit accumulation as an emit
function (the loop body restricted to the exact-hit component). -/
def exactEmit (packages : List (String × String)) (d : CorpusPkg) :
    Option (String × String) :=
  match packageMapGet packages d.dirName with
  | some version =>
    if exactVersionHit d version then some (d.dirName, version) else none
  | none => none

/-- Lookup in a JavaScript object literal used as a map (first matching key;
the literals embedded here have distinct keys). -/
def recordLookup (m : List (String × String)) (k : String) : Option String :=
  (m.find? fun p => p.1 == k).map (fun p => p.2)

/-- Append `v` to the group of `key`, creating the group at the end when the
key is new — JavaScript `Record` insertion-order semantics. -/
def addToGroup (groups : List (String × List (String × String)))
    (key : String) (v : String × String) : List (String × List (String × String)) :=
  match groups with
  | [] => [(key, [v])]
  | (k, vs) :: rest =>
    if k == key then (k, vs ++ [v]) :: rest else (k, vs) :: addToGroup rest key v

/-- A changed dependency as consumed from the changed-dependency artifact. -/
structure ChangedDep where
  name : String
  version : String
  ecosystem : String
deriving DecidableEq

/-- check-ossf's `ECOSYSTEM_MAP`: GitHub ecosystem names to OSSF directory
names. -/
def ECOSYSTEM_MAP_OSSF : List (String × String) :=
  [("npm", "npm"), ("pip", "pypi"), ("rust-crate", "crates-io"), ("go", "go"),
   ("rubygems", "rubygems"), ("nuget", "nuget"), ("maven", "maven")]

/-- check-ossf's ecosystem grouping of the changed dependencies. -/
def ossfGroups (changed : List ChangedDep) : List (String × List (String × String)) :=
  changed.foldl
    (fun groups dep =>
      match recordLookup ECOSYSTEM_MAP_OSSF dep.ecosystem with
      | some ossfDir => addToGroup groups ossfDir (dep.name, dep.version)
      | none => groups)
    []

/-- The corpus root: for each OSSF ecosystem directory name that exists, its
package directories. -/
def corpusLookup (root : List (String × List CorpusPkg)) (dir : String) :
    Option (List CorpusPkg) :=
  (root.find? fun p => p.1 == dir).map (fun p => p.2)

/-- The main matching pass of check-ossf: per ecosystem group, run the
corpus check (an absent ecosystem directory yields no hits) and collect the
per-ecosystem (name matches, exact matches) groups, keeping only non-empty
ones. -/
def checkOssfCore (root : List (String × List CorpusPkg)) (changed : List ChangedDep) :
    List (String × List String) × List (String × List (String × String)) :=
  (ossfGroups changed).foldl
    (fun acc g =>
      let hits :=
        match corpusLookup root g.1 with
        | some corpusDir => checkEcosystem corpusDir g.2
        | none => ([], [])
      let nameMatches := if hits.1.length > 0 then acc.1 ++ [(g.1, hits.1)] else acc.1
      let exactMatches := if hits.2.length > 0 then acc.2 ++ [(g.1, hits.2)] else acc.2
      (nameMatches, exactMatches))
    ([], [])

/-- One entry of the JSON artifact check-ossf writes. -/
structure OssfItem where
  package : String
  name : String
  version : Option String
  ecosystem : String
  type : String
deriving DecidableEq

/-- The JSON array check-ossf writes: flattened exact matches followed by
flattened name matches. -/
def ossfJson (core : List (String × List String) × List (String × List (String × String))) :
    List OssfItem :=
  (core.2.flatMap fun g => g.2.map fun p =>
    { package := p.1 ++ ("@") ++ p.2, name := p.1, version := some p.2,
      ecosystem := g.1, type := ("exact_match") })
  ++ (core.1.flatMap fun g => g.2.map fun n =>
    { package := n, name := n, version := none,
      ecosystem := g.1, type := ("name_match") })

/-- The flattened exact-match entries of the check-ossf output. -/
def ossfExactItems (root : List (String × List CorpusPkg)) (changed : List ChangedDep) :
    List OssfItem :=
  (checkOssfCore root changed).2.flatMap fun g => g.2.map fun p =>
    { package := p.1 ++ ("@") ++ p.2, name := p.1, version := some p.2,
      ecosystem := g.1, type := ("exact_match") }

/-- check-ossf's `main`: a missing changed-dependency file is an error (exit
code 1, no output written); otherwise run the matcher, write the JSON
artifact, and exit 1 exactly when some exact match was found. -/
def checkOssfMain (file : Option (List ChangedDep)) (root : List (String × List CorpusPkg)) :
    Option (List OssfItem) × Nat :=
  match file with
  | none => (none, 1)
  | some changed =>
    let core := checkOssfCore root changed
    (some (ossfJson core), if core.2.length > 0 then 1 else 0)

/- ===================== Heuristic Scan Scheduler (check-guarddog) ===================== -/

/-- check-guarddog's `ECOSYSTEM_MAP`: GitHub ecosystem names to GuardDog
ecosystem names. -/
def ECOSYSTEM_MAP_GUARDDOG : List (String × String) :=
  [("npm", "npm"), ("pip", "pypi"), ("go", "go"), ("actions", "github-action")]

/-- `shouldSkipPackage`: npm type-definition packages are skipped. -/
def shouldSkipPackage (name ecosystem : String) : Bool :=
  if ecosystem == ("npm") && startsWithList name.toList (("@types/").toList) then true
  else false

/-- One scan task of the flat, globally ordered queue. -/
structure ScanTask where
  ecosystem : String
  name : String
  version : String
deriving DecidableEq

/-- Arbitrary JSON value, as found in the `results` mapping of a GuardDog
scan output. -/
inductive JVal where
  | jnull
  | jbool (b : Bool)
  | jnum (n : Int)
  | jstr (s : String)
  | jarr (elems : List JVal)
  | jobj (fields : List (String × JVal))

/-- Parsed GuardDog scan output for one package. -/
structure GuardDogResult where
  package : String
  issues : Int
  errors : List (String × String)
  results : List (String × JVal)
  path : String
  ecosystem : Option String

/-- check-guarddog's grouping loop: map each change's ecosystem through
`ECOSYSTEM_MAP_GUARDDOG` (dropping unsupported ones), skip packages per
`shouldSkipPackage`, and group the rest by GuardDog ecosystem in insertion
order. -/
def guarddogGroups (changed : List ChangedDep) : List (String × List (String × String)) :=
  changed.foldl
    (fun groups dep =>
      match recordLookup ECOSYSTEM_MAP_GUARDDOG dep.ecosystem with
      | none => groups
      | some gdEco =>
        if shouldSkipPackage dep.name dep.ecosystem then groups
        else addToGroup groups gdEco (dep.name, dep.version))
    []

/-- Flatten the ecosystem groups into the global scan-task queue. -/
def buildScanTasks (changed : List ChangedDep) : List ScanTask :=
  (guarddogGroups changed).flatMap fun g =>
    g.2.map fun p => { ecosystem := g.1, name := p.1, version := p.2 }

/-- Split the task queue into consecutive batches of the concurrency budget
(8), mirroring `allScanTasks.slice(i, i + batchSize)` of the batch loop. -/
def chunk8 (l : List ScanTask) : List (List ScanTask) :=
  if l.isEmpty then [] else l.take 8 :: chunk8 (l.drop 8)
termination_by l.length
decreasing_by
  simp only [List.length_drop]
  rename_i h
  have h1 : l ≠ [] := by simpa [List.isEmpty_iff] using h
  have h2 : 0 < l.length := List.length_pos.mpr h1
  omega

/-- The batch loop of check-guarddog: for each batch in order, run every
task (`scan` returns `none` for a failed/empty scan) and append the batch's
successful results to the accumulator once the batch has settled. -/
def runBatches (scan : ScanTask → Option GuardDogResult) (tasks : List ScanTask) :
    List GuardDogResult :=
  (chunk8 tasks).foldl
    (fun allResults batch => allResults ++ (batch.map scan).filterMap id)
    []

/-- check-guarddog's `main`: a missing changed-dependency file is an error
(exit 1); an empty change set, a failed GuardDog installation or an empty
task queue write an empty artifact and exit 0; otherwise the batched scan
runs and the exit code is 1 exactly when there are findings and the
fail-flag is set. Returns (written artifact, exit code). -/
def checkGuarddogMain (file : Option (List ChangedDep)) (installOk : Bool)
    (scan : ScanTask → Option GuardDogResult) (guardDogFail : Bool) :
    Option (List GuardDogResult) × Nat :=
  match file with
  | none => (none, 1)
  | some changed =>
    if changed.length == 0 then (some [], 0)
    else if !installOk then (some [], 0)
    else
      let allScanTasks := buildScanTasks changed
      if allScanTasks.length == 0 then (some [], 0)
      else
        let allResults := runBatches scan allScanTasks
        (some allResults,
         if allResults.length > 0 && guardDogFail then 1 else 0)

/- ===================== Aggregator (PR-comment script) ===================== -/

/-- JavaScript `value || "unknown"` for strings: the empty string is falsy. -/
def jsOrUnknown (s : String) : String := if s == ("") then ("unknown") else s

/-- Significance of one entry of a scan result's `results` mapping:
null, empty objects and empty arrays are noise, everything else counts
(transcribed from the `significantResults` filter). -/
def significantValue : JVal → Bool
  | JVal.jnull => false
  | JVal.jobj fields => fields.length > 0
  | JVal.jarr elems => elems.length > 0
  | _ => true

/-- The "packages with actual issues" filter of `readGuardDogResults`:
a result is significant iff its `errors` mapping is non-empty, or its
`results` mapping is non-empty and contains a significant value. -/
def significantResult (r : GuardDogResult) : Bool :=
  if r.errors.length > 0 then true
  else if r.results.length > 0 then
    (r.results.filter fun kv => significantValue kv.2).length > 0
  else false

/-- Summary counts read from the changed-dependency and malware-hit
artifacts. -/
structure DepReviewSummary where
  totalChanges : Nat
  addedUpdated : Nat
  malwareHits : Nat
deriving DecidableEq

/-- `readDependencyReviewResults`: a missing changed-dependency artifact
yields the zero summary; a missing malware-hit artifact counts as empty. -/
def readDependencyReviewResults (changed : Option (List ChangedDep))
    (malwareHits : Option (List MalwareHit)) : DepReviewSummary :=
  match changed with
  | none => { totalChanges := 0, addedUpdated := 0, malwareHits := 0 }
  | some c =>
    { totalChanges := c.length
      addedUpdated := c.length
      malwareHits := (malwareHits.getD []).length }

/-- Summary read from the malicious-match artifact. -/
structure OssfSummary where
  findings : Nat
  packages : List String
  nameOnlyMatches : List (String × String)
deriving DecidableEq

/-- `readOSSFResults`: a missing artifact yields the zero summary; findings
count only the exact matches, name-only matches are listed separately. -/
def readOSSFResults (ossf : Option (List OssfItem)) : OssfSummary :=
  match ossf with
  | none => { findings := 0, packages := [], nameOnlyMatches := [] }
  | some items =>
    let exactMatches := items.filter fun item => item.type == ("exact_match")
    let nameMatches := items.filter fun item => item.type == ("name_match")
    { findings := exactMatches.length
      packages := exactMatches.map fun item => jsOrUnknown item.package
      nameOnlyMatches := nameMatches.map fun item =>
        (jsOrUnknown item.package, jsOrUnknown item.ecosystem) }

/-- Summary read from the scan-result artifact. -/
structure GuardDogSummary where
  totalScanned : Nat
  findings : Nat
  packagesWithIssues : Nat
deriving DecidableEq

/-- `readGuardDogResults`: a missing artifact yields the zero summary;
`packagesWithIssues` counts the significant results. -/
def readGuardDogResults (guarddog : Option (List GuardDogResult)) : GuardDogSummary :=
  match guarddog with
  | none => { totalScanned := 0, findings := 0, packagesWithIssues := 0 }
  | some results =>
    { totalScanned := results.length
      findings := results.length
      packagesWithIssues := (results.filter significantResult).length }

/-- The overall-issues flag of `generateMarkdownSummary`. -/
def hasIssues (dr : DepReviewSummary) (ossf : OssfSummary) (gd : GuardDogSummary) : Bool :=
  decide (dr.malwareHits > 0) || decide (ossf.findings > 0) ||
  decide (gd.packagesWithIssues > 0)

/- ===================== Concrete instances used by witnesses ===================== -/

/-- A plain dependency record with no vulnerability annotations. -/
def dummyRaw : RawDep :=
  { name := "pkg", version := "1.0.0", ecosystem := "npm",
    change_type := ChangeType.added, manifest := "package.json",
    vulnerabilities := none }

/-- The same record as a removed dependency. -/
def removedRaw : RawDep :=
  { name := "old-pkg", version := "0.9.0", ecosystem := "npm",
    change_type := ChangeType.removed, manifest := "package.json",
    vulnerabilities := none }

/-- A source holding exactly 100 records: page 1 is full, every later page
is empty. -/
def serveHundred : Nat → List RawDep :=
  fun p => if p = 1 then List.replicate 100 dummyRaw else []

/-- A pathological source whose every page is full. -/
def serveAlwaysFull : Nat → List RawDep :=
  fun _ => List.replicate 100 dummyRaw

/-- A source with one added and one removed record on page 1. -/
def serveMixed : Nat → List RawDep :=
  fun p => if p = 1 then [dummyRaw, removedRaw] else []

/-- The normalized change the retriever produces from `dummyRaw`. -/
def mixedChange : DependencyChange :=
  { name := "pkg", version := "1.0.0", ecosystem := "npm",
    changeType := ChangeType.added, vulnerabilities := [] }

/-- A vulnerability whose advisory summary is "Malware: backdoor". -/
def backdoorVuln : VulnerabilityInfo :=
  { severity := "critical"
    advisory :=
      { ghsa_id := "GHSA-aaaa-bbbb-cccc", cve_id := none,
        summary := "Malware: backdoor", description := "bad package",
        severity := "critical", published_at := "2024-01-01" } }

/-- A vulnerability whose advisory carries no malware signal anywhere. -/
def dosVuln : VulnerabilityInfo :=
  { severity := "high"
    advisory :=
      { ghsa_id := "GHSA-dddd-eeee-ffff", cve_id := some "CVE-2024-0001",
        summary := "Denial of service", description := "regex blowup",
        severity := "high", published_at := "2024-01-02" } }

/-- A change carrying both the backdoor vulnerability and the benign one. -/
def backdoorChange : DependencyChange :=
  { name := "evil-lib", version := "2.0.0", ecosystem := "npm",
    changeType := ChangeType.added, vulnerabilities := [backdoorVuln, dosVuln] }

/-- OSV document listing affected version 1.0.0 of evil-pkg. -/
def evilOsv : OsvData :=
  { affected := [{ packageName := some "evil-pkg", versions := some ["1.0.0"] }] }

/-- Corpus directory for the evil-pkg example: one package directory with a
single readable advisory document. -/
def evilCorpusDir : List CorpusPkg :=
  [{ dirName := "evil-pkg", docs := [some evilOsv] }]

/-- Package directory whose first advisory document is unreadable and whose
second (readable) document lists version 1.0.0. -/
def brokenFirstPkg : CorpusPkg :=
  { dirName := "evil-pkg", docs := [none, some evilOsv] }

/-- OSV document for the left-pad end-to-end example. -/
def leftPadOsv : OsvData :=
  { affected := [{ packageName := some "left-pad", versions := some ["1.0.0"] }] }

/-- Corpus root holding an exact-match entry for left-pad 1.0.0 under npm. -/
def leftPadRoot : List (String × List CorpusPkg) :=
  [("npm", [{ dirName := "left-pad", docs := [some leftPadOsv] }])]

/-- The left-pad change set of the end-to-end example. -/
def changedLeftPad : List ChangedDep :=
  [{ name := "left-pad", version := "1.0.0", ecosystem := "npm" }]

/-- Seventeen identical scan tasks (only the count matters). -/
def tasks17 : List ScanTask :=
  List.replicate 17 { ecosystem := "npm", name := "p", version := "1.0.0" }

/-- A change set holding an npm type-definition package and a plain one. -/
def typesChanged : List ChangedDep :=
  [{ name := "@types/node", version := "1.0.0", ecosystem := "npm" },
   { name := "lodash", version := "4.0.0", ecosystem := "npm" }]

/-- The scan task produced from the lodash change. -/
def lodashTask : ScanTask :=
  { ecosystem := "npm", name := "lodash", version := "4.0.0" }

/-- Scan result with no errors and no results. -/
def emptyScanResult : GuardDogResult :=
  { package := "p", issues := 0, errors := [], results := [],
    path := "", ecosystem := some "npm" }

/-- Scan result with one typosquatting error and no results. -/
def typosquatResult : GuardDogResult :=
  { package := "p", issues := 1,
    errors := [("typosquatting", "suspicious name")],
    results := [], path := "", ecosystem := some "npm" }

/-- Scan result with a typosquatting error and arbitrary results mapping. -/
def typosquatWith (desc : String) (rest : List (String × JVal)) : GuardDogResult :=
  { package := "p", issues := 1,
    errors := [("typosquatting", desc)],
    results := rest, path := "", ecosystem := none }

/- ===================== Theorems ===================== -/

theorem fetchLoop_requests_formula (serve : Nat → List RawDep) (N : Nat)
    (h : ∀ p, 1 ≤ p → (serve p).length = pageLen N p) :
    ∀ fuel page, 1 ≤ page → page + fuel = 51 → 100 * (page - 1) ≤ N →
      (fetchLoop serve page fuel).2.1 = min (N / 100 + 1 - (page - 1)) (51 - page) := by
  intro fuel
  induction fuel with
  | zero =>
    intro page h1 h2 h3
    simp only [fetchLoop]
    omega
  | succ fuel ih =>
    intro page h1 h2 h3
    have hlen := h page h1
    unfold pageLen at hlen
    by_cases hshort : (serve page).length < 100
    · rw [hlen] at hshort
      simp only [fetchLoop, hlen]
      rw [if_pos hshort]
      show (1 : Nat) = min (N / 100 + 1 - (page - 1)) (51 - page)
      omega
    · rw [hlen] at hshort
      by_cases hcap : page + 1 > 50
      · simp only [fetchLoop, hlen]
        rw [if_neg hshort, if_pos hcap]
        show (1 : Nat) = min (N / 100 + 1 - (page - 1)) (51 - page)
        omega
      · have hrec := ih (page + 1) (by omega) (by omega) (by omega)
        simp only [fetchLoop, hlen]
        rw [if_neg hshort, if_neg hcap]
        show (fetchLoop serve (page + 1) fuel).2.1 + 1
            = min (N / 100 + 1 - (page - 1)) (51 - page)
        rw [hrec]
        omega

theorem fetchLoop_full (serveF : Nat → List RawDep) (hF : ∀ p, (serveF p).length = 100) :
    ∀ fuel page, 1 ≤ page → page ≤ 50 → page + fuel = 51 →
      (fetchLoop serveF page fuel).2.1 = fuel ∧ (fetchLoop serveF page fuel).2.2 = true := by
  intro fuel
  induction fuel with
  | zero => intro page h1 h2 h3; omega
  | succ fuel ih =>
    intro page h1 h2 h3
    have hlen := hF page
    by_cases hcap : page + 1 > 50
    · simp only [fetchLoop, hlen]
      rw [if_neg (by omega), if_pos hcap]
      refine ⟨?_, rfl⟩
      show (1 : Nat) = fuel + 1
      omega
    · have hrec := ih (page + 1) (by omega) (by omega) (by omega)
      simp only [fetchLoop, hlen]
      rw [if_neg (by omega), if_neg hcap]
      refine ⟨?_, hrec.2⟩
      show (fetchLoop serveF (page + 1) fuel).2.1 + 1 = fuel + 1
      rw [hrec.1]

/-- C2 (amended): for a source serving N records in order in pages of 100,
the retriever issues min(⌊N/100⌋ + 1, 50) page requests — one more than
⌈N/100⌉ when N is a multiple of 100, because a trailing short page is needed
to detect the end — and an always-full source halts after exactly 50 page
requests with the cap warning logged. -/
theorem retriever_pagination (N : Nat) (serve serveF : Nat → List RawDep)
    (h : ∀ p, 1 ≤ p → (serve p).length = pageLen N p)
    (hF : ∀ p, (serveF p).length = 100) :
    (getDependencyChanges serve).2.1 = min (N / 100 + 1) 50 ∧
    (getDependencyChanges serveF).2.1 = 50 ∧
    (getDependencyChanges serveF).2.2 = true := by
  have h1 := fetchLoop_requests_formula serve N h 50 1 (by omega) (by omega) (by omega)
  have h2 := fetchLoop_full serveF hF 50 1 (by omega) (by omega) (by omega)
  refine ⟨?_, ?_, ?_⟩
  · simpa [getDependencyChanges] using by rw [show (51 : Nat) - 1 = 50 from rfl] at h1; simpa using h1
  · simpa [getDependencyChanges] using h2.1
  · simpa [getDependencyChanges] using h2.2

/-- C2 counterexample: a source with exactly 100 records (page 1 full, page
2 empty) receives 2 page requests, not ⌈100/100⌉ = 1 as the claim states —
the retriever must fetch the empty page 2 to detect the end. -/
theorem retriever_pagination_claim_false :
    (getDependencyChanges serveHundred).2.1 = 2 ∧
    (getDependencyChanges serveHundred).2.1 ≠ (100 + 100 - 1) / 100 := by
  constructor
  · decide
  · decide

/-- Witness for the amended C2 theorem: at N = 100 with the concrete
100-record source the formula gives min(100/100 + 1, 50) = 2 requests, and
the concrete always-full source is stopped after 50 requests with the cap
flag set. -/
theorem retriever_pagination_witness :
    (getDependencyChanges serveHundred).2.1 = min (100 / 100 + 1) 50 ∧
    (getDependencyChanges serveAlwaysFull).2.1 = 50 ∧
    (getDependencyChanges serveAlwaysFull).2.2 = true := by
  have hserve : ∀ p, 1 ≤ p → (serveHundred p).length = pageLen 100 p := by
    intro p hp
    unfold serveHundred pageLen
    by_cases hp1 : p = 1
    · subst hp1; simp
    · rw [if_neg hp1]
      have h100 : 100 ≤ 100 * (p - 1) := by omega
      simp only [List.length_nil]
      omega
  have hfull : ∀ p, (serveAlwaysFull p).length = 100 := by
    intro p; simp [serveAlwaysFull]
  exact retriever_pagination 100 serveHundred serveAlwaysFull hserve hfull

/-- C9: no removed record survives into the retriever's output — every
output change is added or updated. -/
theorem retriever_no_removed (serve : Nat → List RawDep) (c : DependencyChange)
    (hc : c ∈ (getDependencyChanges serve).1) : c.changeType ≠ ChangeType.removed := by
  simp only [getDependencyChanges, List.mem_map, List.mem_filter] at hc
  obtain ⟨d, ⟨_, hty⟩, rfl⟩ := hc
  intro hcontra
  simp only at hcontra
  rw [hcontra] at hty
  simp at hty

/-- Witness for C9: the added record of the mixed source appears in the
output and is not removed. -/
theorem retriever_no_removed_witness :
    mixedChange ∈ (getDependencyChanges serveMixed).1 ∧
    mixedChange.changeType ≠ ChangeType.removed := by
  have hmem : mixedChange ∈ (getDependencyChanges serveMixed).1 := by decide
  exact ⟨hmem, retriever_no_removed serveMixed mixedChange hmem⟩

theorem isPrefixOf_iff_append (n : List Char) :
    ∀ h : List Char, n.isPrefixOf h = true ↔ ∃ t, h = n ++ t := by
  induction n with
  | nil => intro h; simp [List.isPrefixOf]
  | cons a as ih =>
    intro h
    cases h with
    | nil => simp [List.isPrefixOf]
    | cons b bs =>
      simp only [List.isPrefixOf, Bool.and_eq_true, beq_iff_eq, ih, List.cons_append,
        List.cons.injEq]
      constructor
      · rintro ⟨rfl, t, rfl⟩; exact ⟨t, rfl, rfl⟩
      · rintro ⟨t, rfl, rfl⟩; exact ⟨rfl, t, rfl⟩

theorem listContainsSub_iff (needle : List Char) :
    ∀ hay : List Char,
      listContainsSub needle hay = true ↔ ∃ pre post, hay = pre ++ needle ++ post := by
  intro hay
  induction hay with
  | nil =>
    simp only [listContainsSub, List.isEmpty_iff]
    constructor
    · rintro rfl; exact ⟨[], [], rfl⟩
    · rintro ⟨pre, post, hp⟩
      rcases List.append_eq_nil.mp hp.symm with ⟨h1, h2⟩
      rcases List.append_eq_nil.mp h1 with ⟨_, h3⟩
      exact h3
  | cons c rest ih =>
    simp only [listContainsSub, Bool.or_eq_true, isPrefixOf_iff_append, ih]
    constructor
    · rintro (⟨t, ht⟩ | ⟨pre, post, hp⟩)
      · exact ⟨[], t, by simpa using ht⟩
      · exact ⟨c :: pre, post, by simp [hp]⟩
    · rintro ⟨pre, post, hp⟩
      cases pre with
      | nil => exact Or.inl ⟨post, by simpa using hp⟩
      | cons a pre =>
        rw [List.cons_append, List.cons_append] at hp
        injection hp with h1 h2
        exact Or.inr ⟨pre, post, h2⟩

theorem checkMalwareVulnerabilities_eq (changes : List DependencyChange) :
    checkMalwareVulnerabilities changes = changes.filterMap malwareEmit := by
  suffices h : ∀ (l : List DependencyChange) (acc : List MalwareHit),
      l.foldl (fun malwareHits change =>
        let malwareVulns := change.vulnerabilities.filter isMalwareVuln
        if malwareVulns.length > 0 then
          malwareHits ++ [{ name := change.name
                            version := change.version
                            vulnerabilities := malwareVulns }]
        else malwareHits) acc = acc ++ l.filterMap malwareEmit by
    simpa [checkMalwareVulnerabilities] using h changes []
  intro l
  induction l with
  | nil => intro acc; simp
  | cons x xs ih =>
    intro acc
    simp only [List.foldl_cons, List.filterMap_cons]
    by_cases hx : (x.vulnerabilities.filter isMalwareVuln).length > 0
    · simp only [if_pos hx, ih, malwareEmit, List.append_assoc, List.singleton_append]
    · simp only [if_neg hx, ih, malwareEmit]

/-- C6: the malware classifier selects exactly the vulnerabilities whose
lowercased advisory summary or description contains the substring for
malware, or whose advisory identifier contains it; a change is emitted as a
hit iff its selected list is non-empty; the backdoor summary is selected and
the denial-of-service one is not. -/
theorem malware_classifier (changes : List DependencyChange) (c : DependencyChange)
    (hc : c ∈ changes) :
    ((∃ v ∈ c.vulnerabilities, isMalwareVuln v = true) ↔
      ∃ hit ∈ checkMalwareVulnerabilities changes,
        hit.name = c.name ∧ hit.version = c.version ∧
        hit.vulnerabilities = c.vulnerabilities.filter isMalwareVuln) ∧
    (∀ v : VulnerabilityInfo, isMalwareVuln v = true ↔
      ((∃ pre post, lowerList v.advisory.summary.toList
          = pre ++ ("malware").toList ++ post) ∨
       (∃ pre post, lowerList v.advisory.description.toList
          = pre ++ ("malware").toList ++ post) ∨
       (∃ pre post, v.advisory.ghsa_id.toList
          = pre ++ ("malware").toList ++ post))) ∧
    isMalwareVuln backdoorVuln = true ∧
    isMalwareVuln dosVuln = false := by
  refine ⟨⟨?_, ?_⟩, ?_, by decide, by decide⟩
  · rintro ⟨v, hv, hmv⟩
    have hne : (c.vulnerabilities.filter isMalwareVuln) ≠ [] :=
      List.ne_nil_of_mem (List.mem_filter.mpr ⟨hv, hmv⟩)
    have hpos : (c.vulnerabilities.filter isMalwareVuln).length > 0 :=
      List.length_pos.mpr hne
    refine ⟨{ name := c.name
              version := c.version
              vulnerabilities := c.vulnerabilities.filter isMalwareVuln }, ?_, rfl, rfl, rfl⟩
    rw [checkMalwareVulnerabilities_eq, List.mem_filterMap]
    refine ⟨c, hc, ?_⟩
    simp only [malwareEmit, if_pos hpos]
  · rintro ⟨hit, hmem, _, _, hvulns⟩
    rw [checkMalwareVulnerabilities_eq, List.mem_filterMap] at hmem
    obtain ⟨a, _, hemit⟩ := hmem
    simp only [malwareEmit] at hemit
    by_cases hcond : (a.vulnerabilities.filter isMalwareVuln).length > 0
    · rw [if_pos hcond] at hemit
      have hvs : hit.vulnerabilities = a.vulnerabilities.filter isMalwareVuln := by
        cases hemit; rfl
      have hpos : (c.vulnerabilities.filter isMalwareVuln).length > 0 := by
        rw [← hvulns, hvs]; exact hcond
      obtain ⟨v, hv⟩ := List.exists_mem_of_length_pos hpos
      exact ⟨v, (List.mem_filter.mp hv).1, (List.mem_filter.mp hv).2⟩
    · rw [if_neg hcond] at hemit
      exact absurd hemit (by simp)
  · intro v
    simp only [isMalwareVuln, Bool.or_eq_true, listContainsSub_iff, or_assoc]

/-- Witness for C6: the change carrying the backdoor vulnerability is
emitted as a hit whose selected list is its malware-filtered
vulnerability list. -/
theorem malware_classifier_witness :
    backdoorChange ∈ [backdoorChange] ∧
    ∃ hit ∈ checkMalwareVulnerabilities [backdoorChange],
      hit.name = backdoorChange.name ∧ hit.version = backdoorChange.version ∧
      hit.vulnerabilities = backdoorChange.vulnerabilities.filter isMalwareVuln := by
  have hmem : backdoorChange ∈ [backdoorChange] := List.mem_singleton.mpr rfl
  exact ⟨hmem,
    ((malware_classifier [backdoorChange] backdoorChange hmem).1).mp
      ⟨backdoorVuln, by decide, by decide⟩⟩

theorem checkEcosystem_eq (corpusDir : List CorpusPkg) (packages : List (String × String)) :
    checkEcosystem corpusDir packages =
      ((corpusDir.filter fun d => (packageMapGet packages d.dirName).isSome).map
          (fun d => d.dirName),
       corpusDir.filterMap (exactEmit packages)) := by
  suffices h : ∀ (l : List CorpusPkg) (acc : List String × List (String × String)),
      l.foldl (fun acc d =>
        match packageMapGet packages d.dirName with
        | some version =>
          (acc.1 ++ [d.dirName],
           if exactVersionHit d version then acc.2 ++ [(d.dirName, version)] else acc.2)
        | none => acc) acc
        = (acc.1 ++ (l.filter fun d => (packageMapGet packages d.dirName).isSome).map
            (fun d => d.dirName),
           acc.2 ++ l.filterMap (exactEmit packages)) by
    simpa [checkEcosystem] using h corpusDir ([], [])
  intro l
  induction l with
  | nil => intro acc; simp
  | cons x xs ih =>
    intro acc
    simp only [List.foldl_cons, List.filter_cons, List.filterMap_cons]
    cases hmap : packageMapGet packages x.dirName with
    | none =>
      simp only [exactEmit, hmap, Option.isSome_none, Bool.false_eq_true, if_false, ih]
    | some version =>
      by_cases hexact : exactVersionHit x version = true
      · simp only [exactEmit, hmap, hexact, Option.isSome_some, if_true, if_pos hexact, ih,
          List.map_cons, List.filterMap_cons_some, List.append_assoc, List.singleton_append]
      · simp only [exactEmit, hmap, Option.isSome_some, if_true,
          if_neg hexact, ih, List.map_cons, List.append_assoc, List.singleton_append]


theorem exactEmit_eq_some (packages : List (String × String)) (d : CorpusPkg)
    (p : String × String) :
    exactEmit packages d = some p ↔
      p.1 = d.dirName ∧ packageMapGet packages d.dirName = some p.2 ∧
        exactVersionHit d p.2 = true := by
  unfold exactEmit
  cases hmap : packageMapGet packages d.dirName with
  | none => simp
  | some version =>
    obtain ⟨a, b⟩ := p
    show (if exactVersionHit d version then some (d.dirName, version) else none)
        = some (a, b) ↔ a = d.dirName ∧ some version = some b ∧ exactVersionHit d b = true
    by_cases hexact : exactVersionHit d version = true
    · rw [if_pos hexact]
      simp only [Option.some.injEq, Prod.mk.injEq]
      constructor
      · rintro ⟨rfl, rfl⟩; exact ⟨rfl, rfl, hexact⟩
      · rintro ⟨rfl, hb, _⟩; exact ⟨rfl, hb⟩
    · rw [if_neg hexact]
      constructor
      · intro h; simp at h
      · rintro ⟨rfl, hb, hx⟩
        obtain rfl : version = b := Option.some.inj hb
        exact absurd hx hexact

/-- C3: a changed package whose name has a corpus directory always yields a
name match, and additionally an exact match exactly when the consulted
advisory document lists the changed version; a name without a corpus
directory yields neither kind of match. -/
theorem matcher_two_tier (corpusDir : List CorpusPkg) (packages : List (String × String)) :
    (∀ d ∈ corpusDir, ∀ v, packageMapGet packages d.dirName = some v →
        d.dirName ∈ (checkEcosystem corpusDir packages).1 ∧
        (exactVersionHit d v = true →
          (d.dirName, v) ∈ (checkEcosystem corpusDir packages).2)) ∧
    (∀ name v, (name, v) ∈ (checkEcosystem corpusDir packages).2 →
        ∃ d ∈ corpusDir, d.dirName = name ∧ packageMapGet packages name = some v ∧
          exactVersionHit d v = true) ∧
    (∀ name, (∀ d ∈ corpusDir, d.dirName ≠ name) →
        name ∉ (checkEcosystem corpusDir packages).1 ∧
        ∀ v, (name, v) ∉ (checkEcosystem corpusDir packages).2) := by
  rw [checkEcosystem_eq]
  refine ⟨?_, ?_, ?_⟩
  · intro d hd v hv
    refine ⟨?_, ?_⟩
    · exact List.mem_map.mpr ⟨d, List.mem_filter.mpr ⟨hd, by simp [hv]⟩, rfl⟩
    · intro hexact
      exact List.mem_filterMap.mpr
        ⟨d, hd, (exactEmit_eq_some packages d (d.dirName, v)).mpr ⟨rfl, hv, hexact⟩⟩
  · intro name v hmem
    obtain ⟨d, hd, hemit⟩ := List.mem_filterMap.mp hmem
    obtain ⟨h1, h2, h3⟩ := (exactEmit_eq_some packages d (name, v)).mp hemit
    refine ⟨d, hd, h1.symm, ?_, h3⟩
    have h1x : name = d.dirName := h1
    rw [h1x]
    exact h2
  · intro name hname
    constructor
    · intro hmem
      obtain ⟨d, hd, hdn⟩ := List.mem_map.mp hmem
      exact hname d (List.mem_filter.mp hd).1 hdn
    · intro v hmem
      obtain ⟨d, hd, hemit⟩ := List.mem_filterMap.mp hmem
      obtain ⟨h1, _, _⟩ := (exactEmit_eq_some packages d (name, v)).mp hemit
      exact hname d hd h1.symm

/-- Witness for C3: against the evil-pkg corpus, the changed version 1.0.0
yields an exact match and a name match, version 9.9.9 yields a name match
but no exact match, and safe-pkg yields no match at all. -/
theorem matcher_two_tier_witness :
    ("evil-pkg", "1.0.0") ∈ (checkEcosystem evilCorpusDir [("evil-pkg", "1.0.0")]).2 ∧
    "evil-pkg" ∈ (checkEcosystem evilCorpusDir [("evil-pkg", "9.9.9")]).1 ∧
    (checkEcosystem evilCorpusDir [("evil-pkg", "9.9.9")]).2 = [] ∧
    "safe-pkg" ∉ (checkEcosystem evilCorpusDir [("safe-pkg", "1.0.0")]).1 := by
  have hd : ({ dirName := "evil-pkg", docs := [some evilOsv] } : CorpusPkg)
      ∈ evilCorpusDir := by
    simp [evilCorpusDir]
  refine ⟨?_, ?_, by decide, ?_⟩
  · exact (((matcher_two_tier evilCorpusDir [("evil-pkg", "1.0.0")]).1
      ({ dirName := "evil-pkg", docs := [some evilOsv] } : CorpusPkg) hd ("1.0.0")
      (by decide)).2 (by decide))
  · exact ((matcher_two_tier evilCorpusDir [("evil-pkg", "9.9.9")]).1
      ({ dirName := "evil-pkg", docs := [some evilOsv] } : CorpusPkg) hd ("9.9.9")
      (by decide)).1
  · exact ((matcher_two_tier evilCorpusDir [("safe-pkg", "1.0.0")]).2.2
      ("safe-pkg") (by decide)).1

/-- C4 counterexample: for a package directory whose first advisory document
is unreadable and whose second lists version 1.0.0, the first readable
document (the second one) lists the version — so the claim predicts an exact
match — yet the code's decision, which reads only the first document
readable or not, produces none. -/
theorem matcher_first_doc_claim_false :
    specFirstReadableHit brokenFirstPkg ("1.0.0") = true ∧
    exactVersionHit brokenFirstPkg ("1.0.0") = false := by
  exact ⟨by decide, by decide⟩

/-- C4 (amended): the exact-match decision consults at most the first
advisory document of the package directory, whether or not it is readable:
the decision is unchanged when all later documents are dropped, an
unreadable first document yields no exact match, a first document not
listing the version yields no exact match regardless of later documents,
and an empty directory yields no exact match. -/
theorem matcher_first_doc_only (name v : String) :
    (∀ doc rest, exactVersionHit { dirName := name, docs := doc :: rest } v
        = exactVersionHit { dirName := name, docs := [doc] } v) ∧
    (∀ rest, exactVersionHit { dirName := name, docs := none :: rest } v = false) ∧
    (∀ osv rest, osvListsVersion osv name v = false →
        exactVersionHit { dirName := name, docs := some osv :: rest } v = false) ∧
    exactVersionHit { dirName := name, docs := [] } v = false := by
  refine ⟨?_, ?_, ?_, rfl⟩
  · intro doc rest
    cases doc with
    | none => rfl
    | some osv => rfl
  · intro rest
    rfl
  · intro osv rest h
    show osvListsVersion osv name v = false
    exact h

/-- Witness for the amended C4 theorem: version 9.9.9 is not listed by the
evil-pkg advisory document, so even with further documents present the
decision is negative; and dropping the later documents of `brokenFirstPkg`
does not change its (negative) decision. -/
theorem matcher_first_doc_only_witness :
    exactVersionHit { dirName := "evil-pkg", docs := [some evilOsv] } ("9.9.9") = false ∧
    exactVersionHit { dirName := "evil-pkg", docs := [none, some evilOsv] } ("1.0.0")
      = exactVersionHit { dirName := "evil-pkg", docs := [none] } ("1.0.0") := by
  constructor
  · exact (matcher_first_doc_only ("evil-pkg") ("9.9.9")).2.2.1 evilOsv [] (by decide)
  · exact (matcher_first_doc_only ("evil-pkg") ("1.0.0")).1 none [some evilOsv]

/-- C1: whenever the matcher finds at least one exact (name and version)
match, check-ossf exits with code 1 — for every value of the warn-only flag,
which the exact-match path never consults. -/
theorem malicious_exact_always_fatal (changed : List ChangedDep)
    (root : List (String × List CorpusPkg)) (warnOnly : Bool)
    (h : ossfExactItems root changed ≠ []) :
    (checkOssfMain (some changed) root).2 = 1 := by
  have hcore : (checkOssfCore root changed).2 ≠ [] := by
    intro hc
    apply h
    unfold ossfExactItems
    rw [hc]
    rfl
  have hpos : (checkOssfCore root changed).2.length > 0 := List.length_pos.mpr hcore
  show (if (checkOssfCore root changed).2.length > 0 then 1 else 0) = 1
  rw [if_pos hpos]

/-- Witness for C1: the left-pad change set against a corpus with an exact
match for left-pad 1.0.0 reports exactly one exact match and exits 1 (the
warn-only flag instantiated arbitrarily). -/
theorem malicious_exact_always_fatal_witness :
    (ossfExactItems leftPadRoot changedLeftPad).length = 1 ∧
    (checkOssfMain (some changedLeftPad) leftPadRoot).2 = 1 := by
  exact ⟨by decide,
    malicious_exact_always_fatal changedLeftPad leftPadRoot true (by decide)⟩

/-- C5 counterexample: check-ossf run with a missing changed-dependency
artifact exits 1, while on an empty array it exits 0 — a consumer of an
intermediate artifact that treats the missing file as an error, not as an
empty array. -/
theorem missing_artifact_claim_false :
    (checkOssfMain none []).2 = 1 ∧ (checkOssfMain (some []) []).2 = 0 := by
  exact ⟨rfl, rfl⟩

/-- C5 (amended): the summary readers of the PR-comment script treat every
missing artifact (changed-dependency, malware-hit, malicious-match,
scan-result) as an empty array, but the check-ossf and check-guarddog
scripts exit 1 when the changed-dependency file is missing. -/
theorem missing_artifact_handling :
    (∀ mh, readDependencyReviewResults none mh
        = readDependencyReviewResults (some []) (some [])) ∧
    (∀ changed, readDependencyReviewResults (some changed) none
        = readDependencyReviewResults (some changed) (some [])) ∧
    readOSSFResults none = readOSSFResults (some []) ∧
    readGuardDogResults none = readGuardDogResults (some []) ∧
    (∀ root, (checkOssfMain none root).2 = 1) ∧
    (∀ installOk scan guardDogFail,
        (checkGuarddogMain none installOk scan guardDogFail).2 = 1) := by
  exact ⟨fun _ => rfl, fun _ => rfl, rfl, rfl, fun _ => rfl, fun _ _ _ => rfl⟩

theorem significantResult_iff (r : GuardDogResult) :
    significantResult r = true ↔
      r.errors ≠ [] ∨ ∃ kv ∈ r.results, significantValue kv.2 = true := by
  unfold significantResult
  by_cases he : r.errors.length > 0
  · rw [if_pos he]
    exact ⟨fun _ => Or.inl (List.length_pos.mp he), fun _ => rfl⟩
  · rw [if_neg he]
    have hne : r.errors = [] := List.length_eq_zero.mp (by omega)
    by_cases hr : r.results.length > 0
    · rw [if_pos hr]
      constructor
      · intro h
        have hpos := of_decide_eq_true h
        have hfne := List.length_pos.mp hpos
        obtain ⟨kv, hkv⟩ := List.exists_mem_of_ne_nil _ hfne
        exact Or.inr ⟨kv, (List.mem_filter.mp hkv).1, (List.mem_filter.mp hkv).2⟩
      · rintro (hl | ⟨kv, hkv, hsig⟩)
        · exact absurd hne hl
        · exact decide_eq_true (List.length_pos.mpr
            (List.ne_nil_of_mem (List.mem_filter.mpr ⟨hkv, hsig⟩)))
    · rw [if_neg hr]
      have hre : r.results = [] := List.length_eq_zero.mp (by omega)
      simp [hne, hre]

/-- C7: the overall-issues flag is true iff malware-hit count, exact-match
count or significant-findings count is positive; a scan result is
significant iff its errors mapping is non-empty or its results mapping has a
key whose value is not null/empty-object/empty-array; the empty scan result
is never significant and one with a typosquatting error always is. -/
theorem aggregator_overall_issues (changedList : List ChangedDep)
    (mhList : List MalwareHit) (ossfList : List OssfItem)
    (gdList : List GuardDogResult) :
    (hasIssues (readDependencyReviewResults (some changedList) (some mhList))
        (readOSSFResults (some ossfList)) (readGuardDogResults (some gdList)) = true ↔
      (0 < mhList.length ∨
       0 < (ossfList.filter fun i => i.type == ("exact_match")).length ∨
       0 < (gdList.filter significantResult).length)) ∧
    (∀ r : GuardDogResult, significantResult r = true ↔
        r.errors ≠ [] ∨ ∃ kv ∈ r.results, significantValue kv.2 = true) ∧
    significantResult emptyScanResult = false ∧
    (∀ rest : List (String × JVal), ∀ desc : String,
        significantResult (typosquatWith desc rest) = true) := by
  refine ⟨?_, significantResult_iff, rfl, fun _ _ => rfl⟩
  simp only [hasIssues, readDependencyReviewResults, readOSSFResults, readGuardDogResults,
    Bool.or_eq_true, decide_eq_true_eq, or_assoc, Option.getD_some]

theorem chunk8_nil : chunk8 [] = [] := by
  rw [chunk8]
  rfl

theorem chunk8_flatten : ∀ (n : Nat) (l : List ScanTask), l.length = n →
    (chunk8 l).flatten = l := by
  intro n
  induction n using Nat.strong_induction_on with
  | _ n ih =>
    intro l hn
    by_cases hemp : l.isEmpty
    · have : l = [] := List.isEmpty_iff.mp hemp
      subst this
      rw [chunk8_nil]
      rfl
    · rw [chunk8, if_neg hemp, List.flatten_cons]
      have hne : l ≠ [] := fun h => hemp (by simp [h])
      have hpos : 0 < l.length := List.length_pos.mpr hne
      rw [ih ((l.drop 8).length) (by simp [List.length_drop]; omega) (l.drop 8) rfl]
      exact List.take_append_drop 8 l

theorem chunk8_lengths : ∀ (n : Nat) (l : List ScanTask), l.length = n → l ≠ [] →
    (chunk8 l).map List.length
      = List.replicate (l.length / 8) 8
        ++ (if l.length % 8 = 0 then [] else [l.length % 8]) := by
  intro n
  induction n using Nat.strong_induction_on with
  | _ n ih =>
    intro l hn hne
    have hemp : ¬ l.isEmpty := by simpa [List.isEmpty_iff] using hne
    have hpos : 0 < l.length := List.length_pos.mpr hne
    rw [chunk8, if_neg hemp]
    by_cases hle : l.length ≤ 8
    · have hdrop : l.drop 8 = [] := List.drop_eq_nil_of_le hle
      rw [hdrop, chunk8_nil]
      simp only [List.map_cons, List.map_nil, List.length_take]
      have htake : min 8 l.length = l.length := by omega
      rw [htake]
      by_cases h8 : l.length = 8
      · rw [h8]
        rfl
      · have hq : l.length / 8 = 0 := by omega
        have hm : l.length % 8 = l.length := by omega
        rw [hq, hm, if_neg (by omega)]
        rfl
    · have hgt : 8 < l.length := by omega
      have hdne : l.drop 8 ≠ [] := by
        intro h
        have := congrArg List.length h
        simp only [List.length_drop, List.length_nil] at this
        omega
      have ihd := ih ((l.drop 8).length) (by simp [List.length_drop]; omega)
        (l.drop 8) rfl hdne
      rw [List.map_cons, ihd]
      simp only [List.length_take, List.length_drop]
      have htake : min 8 l.length = 8 := by omega
      have hm : (l.length - 8) % 8 = l.length % 8 := by omega
      have hq : l.length / 8 = (l.length - 8) / 8 + 1 := by omega
      rw [htake, hm, hq, List.replicate_succ, List.cons_append]

theorem foldl_append_flatten (f : List ScanTask → List GuardDogResult) :
    ∀ (bs : List (List ScanTask)) (acc : List GuardDogResult),
      bs.foldl (fun acc b => acc ++ f b) acc = acc ++ (bs.map f).flatten := by
  intro bs
  induction bs with
  | nil => intro acc; simp
  | cons b rest ih =>
    intro acc
    simp only [List.foldl_cons, List.map_cons, List.flatten_cons, ih, List.append_assoc]

/-- C8: the scheduler splits the task queue into consecutive batches of 8
(with the last batch of size n mod 8 when that is non-zero), the batches
partition the queue in order, the accumulated output is exactly the
concatenation of the per-batch successful results in batch order, and 17
tasks form batches of sizes 8, 8, 1. -/
theorem scheduler_batches (scan : ScanTask → Option GuardDogResult)
    (tasks : List ScanTask) :
    (chunk8 tasks).flatten = tasks ∧
    (tasks ≠ [] → (chunk8 tasks).map List.length
        = List.replicate (tasks.length / 8) 8
          ++ (if tasks.length % 8 = 0 then [] else [tasks.length % 8])) ∧
    runBatches scan tasks
      = ((chunk8 tasks).map fun batch => (batch.map scan).filterMap id).flatten ∧
    (tasks.length = 17 → (chunk8 tasks).map List.length = [8, 8, 1]) := by
  refine ⟨chunk8_flatten tasks.length tasks rfl, chunk8_lengths tasks.length tasks rfl,
    ?_, ?_⟩
  · unfold runBatches
    rw [foldl_append_flatten]
    rfl
  · intro h17
    have hne : tasks ≠ [] := by
      intro h
      rw [h] at h17
      exact absurd h17 (by decide)
    rw [chunk8_lengths tasks.length tasks rfl hne, h17]
    rfl

/-- Witness for C8: the 17-task queue is batched as sizes 8, 8, 1 and the
batches partition it. -/
theorem scheduler_batches_witness :
    (chunk8 tasks17).map List.length = [8, 8, 1] ∧ (chunk8 tasks17).flatten = tasks17 := by
  exact ⟨(scheduler_batches (fun _ => none) tasks17).2.2.2 (by decide),
    (scheduler_batches (fun _ => none) tasks17).1⟩

theorem guarddog_map_npm (e : String)
    (h : recordLookup ECOSYSTEM_MAP_GUARDDOG e = some ("npm")) : e = "npm" := by
  by_cases h1 : e = "npm"
  · exact h1
  by_cases h2 : e = "pip"
  · subst h2; exact absurd h (by decide)
  by_cases h3 : e = "go"
  · subst h3; exact absurd h (by decide)
  by_cases h4 : e = "actions"
  · subst h4; exact absurd h (by decide)
  exfalso
  have hnone : recordLookup ECOSYSTEM_MAP_GUARDDOG e = none := by
    unfold recordLookup
    rw [List.find?_eq_none.mpr]
    · rfl
    · intro x hx
      fin_cases hx
      · simp only [beq_iff_eq]; exact Ne.symm h1
      · simp only [beq_iff_eq]; exact Ne.symm h2
      · simp only [beq_iff_eq]; exact Ne.symm h3
      · simp only [beq_iff_eq]; exact Ne.symm h4
  rw [hnone] at h
  exact absurd h (by simp)

theorem addToGroup_clean (key : String) (v : String × String)
    (hv : key = "npm" → startsWithList v.1.toList (("@types/").toList) = false) :
    ∀ groups : List (String × List (String × String)),
      (∀ g ∈ groups, g.1 = "npm" →
        ∀ p ∈ g.2, startsWithList p.1.toList (("@types/").toList) = false) →
      ∀ g ∈ addToGroup groups key v, g.1 = "npm" →
        ∀ p ∈ g.2, startsWithList p.1.toList (("@types/").toList) = false := by
  intro groups
  induction groups with
  | nil =>
    intro _ g hgmem
    simp only [addToGroup, List.mem_singleton] at hgmem
    subst hgmem
    intro hnpm p hp
    simp only [List.mem_singleton] at hp
    subst hp
    exact hv hnpm
  | cons kv rest ih =>
    obtain ⟨k, vs⟩ := kv
    intro hg g hgmem
    simp only [addToGroup] at hgmem
    by_cases hk : (k == key) = true
    · rw [if_pos hk] at hgmem
      rcases List.mem_cons.mp hgmem with rfl | hgrest
      · intro hnpm p hp
        rcases List.mem_append.mp hp with hp1 | hp2
        · exact hg (k, vs) (List.mem_cons_self _ _) hnpm p hp1
        · rw [List.mem_singleton.mp hp2]
          exact hv (by rw [← eq_of_beq hk]; exact hnpm)
      · exact hg g (List.mem_cons_of_mem _ hgrest)
    · rw [if_neg hk] at hgmem
      rcases List.mem_cons.mp hgmem with rfl | hgrest
      · exact hg (k, vs) (List.mem_cons_self _ _)
      · exact ih (fun g2 hg2 => hg g2 (List.mem_cons_of_mem _ hg2)) g hgrest

theorem guarddogGroups_clean (changed : List ChangedDep) :
    ∀ g ∈ guarddogGroups changed, g.1 = "npm" →
      ∀ p ∈ g.2, startsWithList p.1.toList (("@types/").toList) = false := by
  suffices h : ∀ (l : List ChangedDep) (groups : List (String × List (String × String))),
      (∀ g ∈ groups, g.1 = "npm" →
        ∀ p ∈ g.2, startsWithList p.1.toList (("@types/").toList) = false) →
      ∀ g ∈ l.foldl (fun groups dep =>
          match recordLookup ECOSYSTEM_MAP_GUARDDOG dep.ecosystem with
          | none => groups
          | some gdEco =>
            if shouldSkipPackage dep.name dep.ecosystem then groups
            else addToGroup groups gdEco (dep.name, dep.version)) groups,
        g.1 = "npm" →
        ∀ p ∈ g.2, startsWithList p.1.toList (("@types/").toList) = false by
    exact h changed [] (fun g hg => absurd hg (List.not_mem_nil g))
  intro l
  induction l with
  | nil => intro groups hg; exact hg
  | cons dep rest ih =>
    intro groups hg
    simp only [List.foldl_cons]
    refine ih _ ?_
    cases hmap : recordLookup ECOSYSTEM_MAP_GUARDDOG dep.ecosystem with
    | none => simp only [hmap]; exact hg
    | some gdEco =>
      simp only [hmap]
      by_cases hskip : shouldSkipPackage dep.name dep.ecosystem = true
      · simp only [hskip, if_true]
        exact hg
      · simp only [Bool.not_eq_true] at hskip
        simp only [hskip, if_false]
        refine addToGroup_clean gdEco (dep.name, dep.version) ?_ groups hg
        intro hnpm
        subst hnpm
        have heco : dep.ecosystem = "npm" := guarddog_map_npm _ hmap
        cases hb : startsWithList dep.name.toList (("@types/").toList) with
        | false => rfl
        | true =>
          have hsk : shouldSkipPackage dep.name dep.ecosystem = true := by
            unfold shouldSkipPackage
            rw [heco, hb]
            rfl
          rw [hsk] at hskip
          exact Bool.noConfusion hskip

theorem guarddogGroups_filter_types (changed : List ChangedDep) :
    guarddogGroups changed
      = guarddogGroups (changed.filter fun dep =>
          !(dep.ecosystem == ("npm")
            && startsWithList dep.name.toList (("@types/").toList))) := by
  suffices h : ∀ (l : List ChangedDep) (groups : List (String × List (String × String))),
      l.foldl (fun groups dep =>
          match recordLookup ECOSYSTEM_MAP_GUARDDOG dep.ecosystem with
          | none => groups
          | some gdEco =>
            if shouldSkipPackage dep.name dep.ecosystem then groups
            else addToGroup groups gdEco (dep.name, dep.version)) groups
        = (l.filter fun dep =>
            !(dep.ecosystem == ("npm")
              && startsWithList dep.name.toList (("@types/").toList))).foldl
            (fun groups dep =>
              match recordLookup ECOSYSTEM_MAP_GUARDDOG dep.ecosystem with
              | none => groups
              | some gdEco =>
                if shouldSkipPackage dep.name dep.ecosystem then groups
                else addToGroup groups gdEco (dep.name, dep.version)) groups by
    exact h changed []
  intro l
  induction l with
  | nil => intro groups; rfl
  | cons dep rest ih =>
    intro groups
    rw [List.filter_cons]
    by_cases hkeep : (!(dep.ecosystem == ("npm")
        && startsWithList dep.name.toList (("@types/").toList))) = true
    · rw [if_pos hkeep, List.foldl_cons, List.foldl_cons, ih]
    · rw [if_neg hkeep, List.foldl_cons]
      have hand : (dep.ecosystem == ("npm")) = true
          ∧ startsWithList dep.name.toList (("@types/").toList) = true := by
        rcases Bool.and_eq_true .. |>.mp (by
          cases hx : (dep.ecosystem == ("npm")
              && startsWithList dep.name.toList (("@types/").toList)) with
          | true => rfl
          | false => rw [hx] at hkeep; exact absurd rfl hkeep) with ⟨h1, h2⟩
        exact ⟨h1, h2⟩
      have heco : dep.ecosystem = "npm" := eq_of_beq hand.1
      have hstep : (match recordLookup ECOSYSTEM_MAP_GUARDDOG dep.ecosystem with
          | none => groups
          | some gdEco =>
            if shouldSkipPackage dep.name dep.ecosystem then groups
            else addToGroup groups gdEco (dep.name, dep.version)) = groups := by
        have hmap : recordLookup ECOSYSTEM_MAP_GUARDDOG dep.ecosystem = some ("npm") := by
          rw [heco]
          rfl
        have hskip : shouldSkipPackage dep.name dep.ecosystem = true := by
          unfold shouldSkipPackage
          rw [heco, hand.2]
          rfl
        simp only [hmap, hskip, if_true]
      rw [hstep, ih]

/-- C10: an npm change whose name starts with the type-definition scope is
never enqueued as a scan task: dropping all such changes leaves the task
queue unchanged, no enqueued npm task has such a name, and consequently the
scheduler's output is unchanged for every scanner. -/
theorem scheduler_skips_types_packages (changed : List ChangedDep) :
    buildScanTasks changed
      = buildScanTasks (changed.filter fun dep =>
          !(dep.ecosystem == ("npm")
            && startsWithList dep.name.toList (("@types/").toList))) ∧
    (∀ t ∈ buildScanTasks changed, t.ecosystem = "npm" →
        startsWithList t.name.toList (("@types/").toList) = false) ∧
    (∀ scan, runBatches scan (buildScanTasks changed)
        = runBatches scan (buildScanTasks (changed.filter fun dep =>
            !(dep.ecosystem == ("npm")
              && startsWithList dep.name.toList (("@types/").toList))))) := by
  have h1 : buildScanTasks changed
      = buildScanTasks (changed.filter fun dep =>
          !(dep.ecosystem == ("npm")
            && startsWithList dep.name.toList (("@types/").toList))) := by
    unfold buildScanTasks
    rw [guarddogGroups_filter_types]
  refine ⟨h1, ?_, fun scan => by rw [h1]⟩
  intro t ht hnpm
  unfold buildScanTasks at ht
  obtain ⟨g, hg, htg⟩ := List.mem_flatMap.mp ht
  obtain ⟨p, hp, rfl⟩ := List.mem_map.mp htg
  exact guarddogGroups_clean changed g hg hnpm p hp

/-- Witness for C10: from a change set holding a type-definition package and
lodash, only the lodash task is enqueued, and it does not carry the
type-definition scope. -/
theorem scheduler_skips_types_packages_witness :
    buildScanTasks typesChanged = [lodashTask] ∧
    startsWithList lodashTask.name.toList (("@types/").toList) = false := by
  have hmem : lodashTask ∈ buildScanTasks typesChanged := by decide
  exact ⟨by decide,
    (scheduler_skips_types_packages typesChanged).2.1 lodashTask hmem rfl⟩
